import Mathlib

/-!
Verification of the FMU web interface core (TimeSeries merger, session
artifact store, retention sweeper, HTTP route handlers) against its design
document.  The Python source is shallowly embedded: IEEE doubles are
modelled as rationals (all constants in the claims are exactly
representable and every comparison made by the code on them has the same
outcome), Python dicts keyed by strings are modelled as insertion-ordered
association lists with key overwrite, and fallible operations return
`Except` / `Option`.
-/

namespace FMUWeb

/-- A named schedule as received by `build_structured_input`
(`[name, [[t, v], ...]]` in the Python config format). -/
abbrev Schedule := String × List (ℚ × ℚ)

/-- The absolute tolerance `1e-15` used by the zero-order-hold loop in
`build_structured_input` (`inputs.py` line 50). -/
def tol : ℚ := 1 / 10 ^ 15

/-- `ts.sort(key=lambda x: x[0])` — stable sort of one schedule by time
(`inputs.py` line 30).  `insertionSort` is stable, like Python sort. -/
def sortSamples (samples : List (ℚ × ℚ)) : List (ℚ × ℚ) :=
  samples.insertionSort (fun a b => a.1 ≤ b.1)

/-- Python dict assignment `m[k] = v`: overwrite in place when the key is
present (keeping its position), otherwise append at the end. -/
def dictInsert {α : Type} (m : List (String × α)) (k : String) (v : α) :
    List (String × α) :=
  if m.any (fun p => p.1 = k) then
    m.map (fun p => if p.1 = k then (k, v) else p)
  else m ++ [(k, v)]

/-- The `series` dict built by the first loop of `build_structured_input`
(`inputs.py` lines 26-31): each signal name mapped to its time-sorted
samples, in insertion order. -/
def seriesOf (cfg : List Schedule) : List Schedule :=
  cfg.foldl (fun m p => dictInsert m p.1 (sortSamples p.2)) []

/-- The `all_times` set (`inputs.py` lines 27-33): every sample time of
every schedule, deduplicated by exact equality (Python float set). -/
def allTimesOf (cfg : List Schedule) : List ℚ :=
  (cfg.flatMap (fun p => (sortSamples p.2).map Prod.fst)).dedup

/-- The inner `while` loop of the zero-order-hold fill (`inputs.py`
lines 50-52): advance past every pending sample whose time is at most
`t + 1e-15`, updating `last` to that sample value.  The state `(last, rest)`
stands for the Python `(last, ts[idx+1:])`. -/
def consume (t : ℚ) : ℚ → List (ℚ × ℚ) → ℚ × List (ℚ × ℚ)
  | last, [] => (last, [])
  | last, s :: rest =>
      if s.1 ≤ t + tol then consume t s.2 rest else (last, s :: rest)

/-- The `for i, t in enumerate(times)` loop (`inputs.py` lines 49-53):
walk the union time axis carrying the persistent `(last, rest)` state and
record one value per timestamp. -/
def fillColumn : List ℚ → ℚ → List (ℚ × ℚ) → List ℚ
  | [], _, _ => []
  | t :: more, last, rest =>
      let st := consume t last rest
      st.1 :: fillColumn more st.1 st.2

/-- One signal column (`inputs.py` lines 43-53): a signal with no samples
gets `0.0` everywhere (`data[name] = 0.0`); otherwise the loop starts with
`idx = 0`, `last = ts[0][1]`, i.e. state `(ts[0].2, ts.tail)`. -/
def signalColumn (ts : List (ℚ × ℚ)) (times : List ℚ) : List ℚ :=
  match ts with
  | [] => times.map (fun _ => (0 : ℚ))
  | s :: rest => fillColumn times s.2 rest

/-- The structured array returned by `build_structured_input`: the `time`
field plus one named column per signal, in `series` insertion order. -/
structure MergedTable where
  times : List ℚ
  columns : List (String × List ℚ)
deriving DecidableEq, Repr

/-- `build_structured_input` (`inputs.py` lines 20-55).  `none` models the
Python `None` returns (empty config, or no sample anywhere).
`normalize_inputs` only coerces entries with `float(...)`, which is the
identity in this rational embedding, so it is folded away. -/
def build_structured_input (input_cfg : List Schedule) : Option MergedTable :=
  if input_cfg.isEmpty then none
  else
    let all_times := allTimesOf input_cfg
    if all_times.isEmpty then none
    else
      let times := all_times.insertionSort (fun a b => a ≤ b)
      some { times := times
             columns := (seriesOf input_cfg).map
               (fun p => (p.1, signalColumn p.2 times)) }

/-- The concrete two-schedule input of the design document §8: signal `"1"`
with samples `[(0,1),(2,5)]`, signal `"2"` with samples `[(1,9)]`. -/
def exampleTwoSchedules : List Schedule :=
  [("1", [(0, 1), (2, 5)]), ("2", [(1, 9)])]

/-- Two schedules whose sample times differ by `1e-16`, i.e. they lie within
the `1e-15` tolerance of each other but are not equal. -/
def timesWithinTolerance : List Schedule :=
  [("a", [(0, 1)]), ("b", [(1 / 10 ^ 16, 2)])]

/-- Signal `"a"` has its first two samples within the `1e-15` tolerance of
each other, and signal `"b"` contributes a union timestamp `1e-16` below
the first sample time of `"a"`. -/
def backwardHoldEdge : List Schedule :=
  [("a", [(0, 5), (1 / 10 ^ 16, 7)]), ("b", [(-1 / 10 ^ 16, 0)])]

/-- A regular three-signal input: two sampled signals and one signal with
no samples at all. -/
def threeSignalInput : List Schedule :=
  [("a", [(5, 7), (10, 3)]), ("b", [(0, 2)]), ("c", [])]

/-- The two-schedule example of §8 with its schedule list reversed. -/
def exampleTwoSchedulesRev : List Schedule :=
  [("2", [(1, 9)]), ("1", [(0, 1), (2, 5)])]

/-- The time axis of a merge result, when one was produced. -/
def tableTimes : Option MergedTable → Option (List ℚ)
  | none => none
  | some tb => some tb.times

/-- The column a merge result associates with a signal name. -/
def tableColumn (name : String) : Option MergedTable → Option (List ℚ)
  | none => none
  | some tb => tb.columns.lookup name

/-! ### Session artifact store (`storage.py`) -/

/-- Artifact payloads are opaque byte sequences. -/
abbrev Bytes := List Nat

/-- `SessionState` (storage.py lines 10-18): the single session aggregate.
`result_blobs` is a Python dict token → (name, bytes), modelled as an
insertion-ordered association list with at most one entry per key. -/
structure SessionState where
  fmu_token : Option String := none
  fmu_name : Option String := none
  fmu_bytes : Option Bytes := none
  input_token : Option String := none
  input_name : Option String := none
  input_bytes : Option Bytes := none
  result_blobs : List (String × (String × Bytes)) := []
deriving DecidableEq, Repr

/-- `_new_token` (storage.py lines 115-116): `"mem:" + uuid4().hex`.  The
non-deterministic `uuid4().hex` draw is modelled by an explicit nonce
argument supplied per call. -/
def new_token (nonce : Nat) : String := "mem:" ++ toString nonce

/-- `SessionStore.set_fmu` (storage.py lines 53-62): store the new primary
under a fresh token and drop the auxiliary input and all results. -/
def set_fmu (st : SessionState) (nonce : Nat) (name : String) (data : Bytes) :
    String × SessionState :=
  let token := new_token nonce
  (token,
   { st with
     fmu_token := some token, fmu_name := some name, fmu_bytes := some data,
     input_token := none, input_name := none, input_bytes := none,
     result_blobs := [] })

/-- `SessionStore.set_input` (storage.py lines 64-69). -/
def set_input (st : SessionState) (nonce : Nat) (name : String) (data : Bytes) :
    String × SessionState :=
  let token := new_token nonce
  (token,
   { st with
     input_token := some token, input_name := some name, input_bytes := some data })

/-- `SessionStore.add_result` (storage.py lines 71-74): dict assignment
`result_blobs[token] = (name, data)`. -/
def add_result (st : SessionState) (nonce : Nat) (name : String) (data : Bytes) :
    String × SessionState :=
  let token := new_token nonce
  (token, { st with result_blobs := dictInsert st.result_blobs token (name, data) })

/-- `SessionStore.get_result` (storage.py lines 76-77): `dict.get`. -/
def get_result (st : SessionState) (token : String) : Option (String × Bytes) :=
  st.result_blobs.lookup token

/-- Python truthiness of an `Optional[str]` token: `None` and `""` are
falsy, so `if tok: removed.append(tok)` contributes the token only when it
is a nonempty string. -/
def tokenIfTruthy : Option String → List String
  | none => []
  | some s => if s.isEmpty then [] else [s]

/-- The removal report returned by `SessionStore.clear`. -/
structure ClearReport where
  removed : List String
  errors : List String
deriving DecidableEq, Repr

/-- `SessionStore.clear` (storage.py lines 79-87): collect the live tokens,
reset to a fresh `SessionState`, and report an empty per-item error list.
The `upload_dir` argument is accepted and never used, exactly as in the
code; no filesystem effect exists in the method body. -/
def clear (st : SessionState) (upload_dir : String) : ClearReport × SessionState :=
  let removed := tokenIfTruthy st.fmu_token ++ tokenIfTruthy st.input_token ++
    st.result_blobs.map Prod.fst
  ({ removed := removed, errors := [] }, {})

/-! ### Retention sweeper (`storage.py`, `cleanup_old_files`) -/

/-- One directory entry as seen by `cleanup_old_files`: its name, whether
`is_file()` holds, the `stat().st_mtime` result (`none` models the
`OSError` branch), and whether `unlink()` succeeds. -/
structure DirEntry where
  ename : String
  isRegularFile : Bool
  statMtime : Option ℤ
  unlinkOk : Bool
deriving DecidableEq, Repr

/-- The durable directory: whether it exists and its direct entries. -/
structure UploadDir where
  present : Bool
  entries : List DirEntry
deriving DecidableEq, Repr

/-- `cleanup_old_files` (storage.py lines 90-112): enumerate direct
entries, skip non-files and entries that fail to stat, delete files whose
mtime is strictly older than the cutoff when `unlink` succeeds, and count
the deletions.  Timestamps are in seconds, so the
`timedelta(hours=max_age_hours)` cutoff is `now - 3600 * max_age_hours`.
Returns the count together with the names actually deleted. -/
def cleanup_old_files (d : UploadDir) (now : ℤ) (max_age_hours : ℤ) :
    Nat × List String :=
  if !d.present then (0, [])
  else
    let cutoff := now - 3600 * max_age_hours
    d.entries.foldl
      (fun acc e =>
        if !e.isRegularFile then acc
        else
          match e.statMtime with
          | none => acc
          | some m =>
              if m < cutoff then
                if e.unlinkOk then (acc.1 + 1, acc.2 ++ [e.ename]) else acc
              else acc)
      (0, [])

/-- The entries `cleanup_old_files` actually removes: direct regular files
that stat successfully, are older than the cutoff, and unlink successfully. -/
def sweepDeletes (cutoff : ℤ) (e : DirEntry) : Bool :=
  e.isRegularFile &&
    (match e.statMtime with
     | none => false
     | some m => decide (m < cutoff)) &&
    e.unlinkOk

/-- A concrete directory state exercising every branch of the sweeper: an
old deletable file, an old file whose deletion fails, an old entry that is
not a regular file, an old entry that fails to stat, and a fresh file. -/
def sweepExampleDir : UploadDir :=
  { present := true
    entries :=
      [ { ename := "old", isRegularFile := true, statMtime := some 100, unlinkOk := true }
      , { ename := "locked", isRegularFile := true, statMtime := some 100, unlinkOk := false }
      , { ename := "subdir", isRegularFile := false, statMtime := some 100, unlinkOk := true }
      , { ename := "ghost", isRegularFile := true, statMtime := none, unlinkOk := true }
      , { ename := "fresh", isRegularFile := true, statMtime := some 9000, unlinkOk := true } ] }

/-- A concrete populated session: a primary, an auxiliary input and one
result artifact. -/
def populatedSession : SessionState :=
  { fmu_token := some "mem:0"
    fmu_name := some "model.fmu"
    fmu_bytes := some [1, 2]
    input_token := some "mem:1"
    input_name := some "input.csv"
    input_bytes := some [3]
    result_blobs := [("mem:2", ("result.csv", [4, 5]))] }

/-! ### HTTP route handlers (`routes.py`) -/

/-- The attribute names class `SessionStore` defines (storage.py
lines 21-87: its properties and methods). -/
def sessionStoreAttrs : List String :=
  ["fmu_token", "fmu_name", "fmu_bytes", "input_token", "input_name",
   "input_bytes", "result_tokens", "set_fmu", "set_input", "add_result",
   "get_result", "clear"]

/-- Python attribute access on the session store: `AttributeError` when the
class does not define the attribute. -/
def storeAttr (attr : String) : Except String Unit :=
  if sessionStoreAttrs.contains attr then Except.ok ()
  else Except.error ("AttributeError: " ++ attr)

/-- Python `s.lower().endswith(suffix)`, over the character lists (the
character-list form is used so that concrete instances evaluate). -/
def pyLowerEndsWith (s suffix : String) : Bool :=
  suffix.data.isSuffixOf (s.data.map Char.toLower)

/-- Python `s.startswith(t)`, over the character lists. -/
def pyStartsWith (s t : String) : Bool := t.data.isPrefixOf s.data

/-- An upload request: the optional `clearFirst` form flag and the filename
of the `"file"` part (`none` models a missing part; the empty filename
models an unselected file, which is also falsy for the FileStorage object). -/
structure UploadReq where
  clearFirst : Bool
  file : Option String
deriving DecidableEq, Repr

/-- Response of the two upload routes: `badRequest` is a 400 JSON error,
`serverError` the 500 JSON of the `except` branch, `ok` the success JSON. -/
inductive UploadResponse where
  | badRequest (msg : String)
  | serverError (msg : String)
  | ok (path : String)
deriving DecidableEq, Repr

/-- HTTP status code of an upload response (routes.py return values). -/
def UploadResponse.code : UploadResponse → Nat
  | .badRequest _ => 400
  | .serverError _ => 500
  | .ok _ => 200

/-- Outcome of an upload route: the response, the session store afterwards,
and the files left on disk by the request. -/
structure UploadResult where
  response : UploadResponse
  store : SessionState
  files : List String
deriving DecidableEq, Repr

/-- `upload_fmu` (routes.py lines 58-123).  `templateError` abstracts the
external `generate_template` call (`some msg` = it raised).  On the happy
path the handler calls `store.set_fmu_path`, an attribute `SessionStore`
does not define; the `except` branch removes the partially uploaded file
and returns the 500 JSON. -/
def upload_fmu (upload_dir : String) (st : SessionState) (req : UploadReq)
    (templateError : Option String) (timestamp : String) : UploadResult :=
  let st1 := if req.clearFirst then (clear st upload_dir).2 else st
  match req.file with
  | none => ⟨.badRequest "No file", st1, []⟩
  | some filename =>
      if filename = "" then ⟨.badRequest "No file selected", st1, []⟩
      else if !(pyLowerEndsWith filename ".fmu") then
        ⟨.badRequest "Only .fmu files allowed", st1, []⟩
      else
        let fmu_path := upload_dir ++ "/" ++ timestamp ++ "_" ++ filename
        match templateError with
        | some msg => ⟨.serverError msg, st1, []⟩
        | none =>
            match storeAttr "set_fmu_path" with
            | Except.error msg => ⟨.serverError msg, st1, []⟩
            | Except.ok _ => ⟨.ok fmu_path, st1, [fmu_path]⟩

/-- `upload_input_file` (routes.py lines 226-251): same shape for the
auxiliary CSV, calling the undefined `store.set_input_file`; its `except`
branch does not remove the saved file. -/
def upload_input_file (upload_dir : String) (st : SessionState)
    (file : Option String) (timestamp : String) : UploadResult :=
  match file with
  | none => ⟨.badRequest "No file", st, []⟩
  | some filename =>
      if filename = "" then ⟨.badRequest "No file selected", st, []⟩
      else if !(pyLowerEndsWith filename ".csv") then
        ⟨.badRequest "Only .csv files allowed", st, []⟩
      else
        let input_path := upload_dir ++ "/" ++ timestamp ++ "_" ++ filename
        match storeAttr "set_input_file" with
        | Except.error msg => ⟨.serverError msg, st, [input_path]⟩
        | Except.ok _ => ⟨.ok input_path, st, [input_path]⟩

/-- The parts of the `/api/run` JSON payload the control flow inspects;
the remaining solver options are forwarded opaquely to the engine. -/
structure RunPayload where
  fmu : Option String
  inputs : List Schedule
  input_file : Option String
  validate : Option Bool
deriving Repr

/-- The externals `/api/run` consults: the filesystem, the validator
(`validate_fmu` problem list), the platform pre-flight check with its log
lines, and the simulation engine (`simulate_fmu`), which either raises
(message) or returns a tabular result (columns and row count). -/
structure RunWorld where
  pathExists : String → Bool
  validationProblems : List String
  platformOk : Bool
  platformLogs : List String
  engine : Except String (List String × Nat)

/-- Response of `/api/run`: 400 JSON errors, the 500 JSON of the `except`
branch (with logs), an exception escaping the handler (Flask 500), or the
success JSON. -/
inductive RunResponse where
  | badRequest (error : String) (logs : List String)
  | exceptBranch (error : String) (logs : List String)
  | raised (error : String)
  | ok (columns : List String) (csv : String) (logs : List String)
deriving DecidableEq, Repr

/-- HTTP status code of a run response. -/
def RunResponse.code : RunResponse → Nat
  | .badRequest _ _ => 400
  | .exceptBranch _ _ => 500
  | .raised _ => 500
  | .ok _ _ _ => 200

/-- Outcome of `/api/run`. -/
structure RunResult where
  response : RunResponse
  store : SessionState
  files : List String
deriving DecidableEq, Repr

/-- Python `"TwinCAT" in s`, via `splitOn`. -/
def strContains (s pat : String) : Bool := (s.splitOn pat).length != 1

/-- The diagnostic log lines accumulated before the engine is invoked
(routes.py lines 172-177): the validation problem list when validation is
enabled (`payload.get("validate", True)`). -/
def runLogs (w : RunWorld) (p : RunPayload) : List String :=
  if p.validate.getD true then w.validationProblems else []

/-- The TwinCAT hint the `except` branch may append (routes.py
lines 216-219). -/
def twinHint (logs : List String) (msg : String) : List String :=
  if logs.any (fun l => strContains l "TwinCAT") || strContains msg "TwinCAT" then
    ["Hint: Install TwinCAT 3 XAE + XAR (matching build) so registry keys like 'DataDir' exist."]
  else []

/-- The `try` block of `run_simulation` (routes.py lines 171-223):
validation logging, platform pre-flight, engine call, CSV write, the
undefined `store.add_result_file` access, and the shared `except` branch. -/
def run_simulation_try (st : SessionState) (w : RunWorld) (p : RunPayload)
    (timestamp upload_parent : String) : RunResult :=
  let logs := runLogs w p
  if !w.platformOk then
    ⟨.badRequest "FMU does not support the current platform." (logs ++ w.platformLogs),
     st, []⟩
  else
    match w.engine with
    | Except.error e => ⟨.exceptBranch e (logs ++ twinHint logs e), st, []⟩
    | Except.ok result =>
        let out_csv := upload_parent ++ "/result_" ++ timestamp ++ ".csv"
        match storeAttr "add_result_file" with
        | Except.error msg =>
            ⟨.exceptBranch msg (logs ++ twinHint logs msg), st, [out_csv]⟩
        | Except.ok _ => ⟨.ok result.1 out_csv (logs), st, [out_csv]⟩

/-- `run_simulation` (routes.py lines 126-223).  `payload.get("fmu") or
store.fmu_path` evaluates the undefined attribute `store.fmu_path` whenever
the payload value is falsy, and that access sits outside the `try`, so the
`AttributeError` escapes the handler.  After a successful engine call the
result CSV is written and then `store.add_result_file` — also undefined —
raises inside the `try`, landing in the `except` branch.  The structured
input table for the engine is built with `build_structured_input`
(an empty `inputs` list models a missing/empty payload entry).  The part of
the handler after the model path is resolved (routes.py lines 132-223): -/
def run_simulation_checked (st : SessionState) (w : RunWorld) (p : RunPayload)
    (timestamp upload_parent : String) (fmu_path : String) : RunResult :=
  if fmu_path = "" || !(w.pathExists fmu_path) then
    ⟨.badRequest "FMU not found. Upload first." [], st, []⟩
  else
    let _signals := build_structured_input p.inputs
    match p.input_file with
    | some input_file =>
        if input_file ≠ "" && !(w.pathExists input_file) then
          ⟨.badRequest "Input file not found. Upload again." [], st, []⟩
        else run_simulation_try st w p timestamp upload_parent
    | none => run_simulation_try st w p timestamp upload_parent

/-- Entry of the handler: `fmu_path = payload.get("fmu") or store.fmu_path`
(routes.py line 131).  When the payload value is falsy the undefined
attribute `store.fmu_path` is evaluated, and the access sits outside the
`try`, so the `AttributeError` escapes the handler; the `Except.ok` branch
is unreachable (kept to mirror the expression shape, with a placeholder
value). -/
def run_simulation (st : SessionState) (w : RunWorld) (p : RunPayload)
    (timestamp upload_parent : String) : RunResult :=
  match p.fmu with
  | some s =>
      if s ≠ "" then run_simulation_checked st w p timestamp upload_parent s
      else
        match storeAttr "fmu_path" with
        | Except.error msg => ⟨.raised msg, st, []⟩
        | Except.ok _ => run_simulation_checked st w p timestamp upload_parent ""
  | none =>
      match storeAttr "fmu_path" with
      | Except.error msg => ⟨.raised msg, st, []⟩
      | Except.ok _ => run_simulation_checked st w p timestamp upload_parent ""

/-- Response of `/api/download`: the 404 JSON, an exception escaping the
handler (Flask 500), a `send_file` failure (500 JSON), or the served file. -/
inductive DownloadResponse where
  | notFound
  | raised (msg : String)
  | sendError (msg : String)
  | served (path : String)
deriving DecidableEq, Repr

/-- HTTP status code of a download response. -/
def DownloadResponse.code : DownloadResponse → Nat
  | .notFound => 404
  | .raised _ => 500
  | .sendError _ => 500
  | .served _ => 200

/-- `download` (routes.py lines 254-278).  The handler first builds the
allowed set from `store.result_files`, `store.fmu_path` and
`store.input_file` — three attributes `SessionStore` does not define — and
only then resolves the path, checks membership and existence, checks that
the resolved path begins with the resolved upload root, and serves the
file.  `resolve`, `allowed`, `exists` and `sendOk` abstract the filesystem
and the values the allowed set would contain. -/
def download (rootResolved : String) (pathArg : Option String)
    (resolve : String → String) (allowed : String → Bool)
    (pathExists : String → Bool) (sendOk : Bool) : DownloadResponse :=
  match pathArg with
  | none => .notFound
  | some p =>
      if p = "" then .notFound
      else
        match storeAttr "result_files" with
        | Except.error msg => .raised msg
        | Except.ok _ =>
            match storeAttr "fmu_path" with
            | Except.error msg => .raised msg
            | Except.ok _ =>
                match storeAttr "input_file" with
                | Except.error msg => .raised msg
                | Except.ok _ =>
                    let resolved := resolve p
                    if !(allowed resolved) || !(pathExists resolved) then .notFound
                    else if !(pyStartsWith resolved rootResolved) then .notFound
                    else if sendOk then .served resolved
                    else .sendError "send_file failed"

/-- A concrete world in which every external call succeeds: files exist,
no validation problems, the platform matches, and the engine returns a
table with columns `["time", "y"]` and 3 rows. -/
def runWorldOk : RunWorld :=
  { pathExists := fun _ => true
    validationProblems := []
    platformOk := true
    platformLogs := []
    engine := Except.ok (["time", "y"], 3) }

/-- A concrete world in which the engine raises `"boom"` after one
validation problem was logged. -/
def runWorldEngineDown : RunWorld :=
  { pathExists := fun _ => true
    validationProblems := ["[VALIDATION] warning: x"]
    platformOk := true
    platformLogs := []
    engine := Except.error "boom" }

end FMUWeb

namespace FMUWeb

/-- C1 counterexample: on the two-schedule example the code does NOT
produce `[0,9,9]` for signal `"2"` — the zero-order hold extends the first
sample value backward, so the column is `[9,9,9]`. -/
theorem c1_counterexample :
    build_structured_input exampleTwoSchedules ≠
      some { times := [0, 1, 2],
             columns := [("1", [1, 1, 5]), ("2", [0, 9, 9])] } := by
  norm_num [build_structured_input, allTimesOf, seriesOf, dictInsert, sortSamples,
    signalColumn, fillColumn, consume, tol, List.insertionSort, List.orderedInsert,
    exampleTwoSchedules]
  simp only [String.reduceEq, reduceIte, List.map_cons, List.map_nil]
  norm_num [consume, tol]

/-- C1 (amended): merging signal `"1"` = `[(0,1),(2,5)]` with signal `"2"`
= `[(1,9)]` yields times `[0,1,2]`, column `"1"` = `[1,1,5]`, and column
`"2"` = `[9,9,9]` (the first sample value held backward before `t = 1`). -/
theorem c1_merge_example :
    build_structured_input exampleTwoSchedules =
      some { times := [0, 1, 2],
             columns := [("1", [1, 1, 5]), ("2", [9, 9, 9])] } := by
  norm_num [build_structured_input, allTimesOf, seriesOf, dictInsert, sortSamples,
    signalColumn, fillColumn, consume, tol, List.insertionSort, List.orderedInsert,
    exampleTwoSchedules]
  simp only [String.reduceEq, reduceIte, List.map_cons, List.map_nil]
  norm_num [consume, tol]

/-- The zero-order-hold loop records exactly one value per union timestamp. -/
theorem fillColumn_length (times : List ℚ) :
    ∀ last rest, (fillColumn times last rest).length = times.length := by
  induction times with
  | nil => intro last rest; rfl
  | cons t more ih => intro last rest; simp [fillColumn, ih]

/-- Every signal column has exactly one value per union timestamp. -/
theorem signalColumn_length (ts : List (ℚ × ℚ)) (times : List ℚ) :
    (signalColumn ts times).length = times.length := by
  cases ts with
  | nil => simp [signalColumn]
  | cons s rest => simp [signalColumn, fillColumn_length]

/-- Sorting a schedule does not change which samples it contains. -/
theorem mem_sortSamples {s : ℚ × ℚ} {l : List (ℚ × ℚ)} :
    s ∈ sortSamples l ↔ s ∈ l :=
  (List.perm_insertionSort _ l).mem_iff

/-- Shape of a successful merge: the time axis is the sorted deduplicated
union, and the columns are the zero-order-hold fills of the `series` dict. -/
theorem build_eq_some {cfg : List Schedule} {tb : MergedTable}
    (h : build_structured_input cfg = some tb) :
    tb.times = (allTimesOf cfg).insertionSort (fun a b => a ≤ b) ∧
    tb.columns = (seriesOf cfg).map (fun p => (p.1, signalColumn p.2 tb.times)) := by
  simp only [build_structured_input] at h
  split at h
  · exact absurd h (by simp)
  · split at h
    · exact absurd h (by simp)
    · rw [Option.some_inj] at h
      subst h
      exact ⟨rfl, rfl⟩

/-- The sorted deduplicated union is strictly sorted. -/
theorem sorted_lt_sortedTimes (l : List ℚ) :
    ((l.dedup).insertionSort (fun a b => a ≤ b)).Sorted (· < ·) := by
  have hs : ((l.dedup).insertionSort (fun a b => a ≤ b)).Sorted (fun a b => a ≤ b) :=
    List.sorted_insertionSort _ _
  have hnd : ((l.dedup).insertionSort (fun a b => a ≤ b)).Nodup :=
    (List.perm_insertionSort _ _).symm.nodup (List.nodup_dedup _)
  exact (hs.and hnd).imp (fun h => lt_of_le_of_ne h.1 h.2)

/-- C4 counterexample: sample times `0` and `1e-16` differ by less than the
`1e-15` tolerance, yet the merged time axis keeps both as distinct entries —
the union is deduplicated by exact equality only, not within tolerance. -/
theorem c4_counterexample :
    build_structured_input timesWithinTolerance =
      some { times := [0, 1 / 10 ^ 16],
             columns := [("a", [1, 1]), ("b", [2, 2])] } ∧
    (0 : ℚ) ≠ 1 / 10 ^ 16 ∧ |(0 : ℚ) - 1 / 10 ^ 16| ≤ tol := by
  refine ⟨?_, by norm_num, by rw [tol]; norm_num [abs_le]⟩
  norm_num [build_structured_input, allTimesOf, seriesOf, dictInsert, sortSamples,
    signalColumn, fillColumn, consume, tol, List.insertionSort, List.orderedInsert,
    timesWithinTolerance]
  simp only [String.reduceEq, reduceIte, List.map_cons, List.map_nil]
  norm_num [consume, tol]

/-- C4 (amended): for every accepted input the merged `times` axis is
strictly increasing and contains exactly the sample times occurring in the
input schedules (deduplicated by exact equality — the `1e-15` tolerance is
used only by the zero-order-hold lookup, not to merge nearby timestamps),
and every column has exactly one value per entry of `times`. -/
theorem c4_table_invariants (cfg : List Schedule) (tb : MergedTable)
    (h : build_structured_input cfg = some tb) :
    tb.times.Sorted (· < ·) ∧
    (∀ t : ℚ, t ∈ tb.times ↔ ∃ p ∈ cfg, ∃ s ∈ (p : Schedule).2, (s : ℚ × ℚ).1 = t) ∧
    (∀ c ∈ tb.columns, (c : String × List ℚ).2.length = tb.times.length) := by
  obtain ⟨ht, hc⟩ := build_eq_some h
  refine ⟨?_, ?_, ?_⟩
  · rw [ht]; exact sorted_lt_sortedTimes _
  · intro t
    rw [ht, (List.perm_insertionSort _ _).mem_iff]
    unfold allTimesOf
    rw [List.mem_dedup, List.mem_flatMap]
    constructor
    · rintro ⟨p, hp, hmem⟩
      rcases List.mem_map.mp hmem with ⟨s, hs, rfl⟩
      exact ⟨p, hp, s, mem_sortSamples.mp hs, rfl⟩
    · rintro ⟨p, hp, s, hs, rfl⟩
      exact ⟨p, hp, List.mem_map.mpr ⟨s, mem_sortSamples.mpr hs, rfl⟩⟩
  · intro c hcmem
    rw [hc] at hcmem
    rcases List.mem_map.mp hcmem with ⟨p, _, rfl⟩
    exact signalColumn_length _ _

/-- C4 witness: the invariants instantiated on the concrete two-schedule
example. -/
theorem c4_witness :
    ([0, 1, 2] : List ℚ).Sorted (· < ·) ∧
    (∀ t : ℚ, t ∈ ([0, 1, 2] : List ℚ) ↔
      ∃ p ∈ exampleTwoSchedules, ∃ s ∈ (p : Schedule).2, (s : ℚ × ℚ).1 = t) ∧
    (∀ c ∈ [("1", [1, 1, 5]), ("2", [(9 : ℚ), 9, 9])],
      (c : String × List ℚ).2.length = ([0, 1, 2] : List ℚ).length) := by
  have h : build_structured_input exampleTwoSchedules =
      some { times := [0, 1, 2],
             columns := [("1", [1, 1, 5]), ("2", [9, 9, 9])] } := by
    norm_num [build_structured_input, allTimesOf, seriesOf, dictInsert, sortSamples,
      signalColumn, fillColumn, consume, tol, List.insertionSort, List.orderedInsert,
      exampleTwoSchedules]
    simp only [String.reduceEq, reduceIte, List.map_cons, List.map_nil]
    norm_num [consume, tol]
  exact c4_table_invariants exampleTwoSchedules _ h

/-- When the key is not yet present, the dict assignment appends. -/
theorem dictInsert_of_not_mem {α : Type} {m : List (String × α)} {k : String}
    (hk : k ∉ m.map Prod.fst) (v : α) : dictInsert m k v = m ++ [(k, v)] := by
  unfold dictInsert
  rw [if_neg]
  simp only [List.any_eq_true, decide_eq_true_eq, not_exists, not_and]
  intro p hp hpk
  exact hk (List.mem_map.mpr ⟨p, hp, hpk⟩)

/-- With pairwise-distinct signal names the `series` dict is just the input
list with each schedule sorted. -/
theorem seriesOf_eq_map (cfg : List Schedule)
    (hnd : (cfg.map Prod.fst).Nodup) :
    seriesOf cfg = cfg.map (fun p => (p.1, sortSamples p.2)) := by
  suffices h : ∀ (l : List Schedule) (acc : List Schedule),
      (l.map Prod.fst).Nodup →
      (∀ k, k ∈ l.map Prod.fst → k ∉ acc.map Prod.fst) →
      l.foldl (fun m p => dictInsert m p.1 (sortSamples p.2)) acc
        = acc ++ l.map (fun p => (p.1, sortSamples p.2)) by
    simpa using h cfg [] hnd (by simp)
  intro l
  induction l with
  | nil => intro acc _ _; simp
  | cons p rest ih =>
      intro acc hnd hdisj
      simp only [List.map_cons, List.nodup_cons] at hnd
      simp only [List.foldl_cons]
      rw [dictInsert_of_not_mem (hdisj p.1 (by simp))]
      rw [ih (acc ++ [(p.1, sortSamples p.2)]) hnd.2 ?_]
      · simp
      · intro k hk
        simp only [List.map_append, List.mem_append, List.map_cons, List.map_nil]
        rintro (hmem | hmem)
        · exact hdisj k (by simp [hk]) hmem
        · simp only [List.mem_singleton] at hmem
          subst hmem
          exact hnd.1 hk

/-- If every pending sample is further than the tolerance above `t`, the
inner while loop does not advance. -/
theorem consume_of_far {t last : ℚ} {rest : List (ℚ × ℚ)}
    (hfar : ∀ s ∈ rest, t + tol < (s : ℚ × ℚ).1) :
    consume t last rest = (last, rest) := by
  cases rest with
  | nil => rfl
  | cons s r =>
      unfold consume
      rw [if_neg (not_le.mpr (hfar s (by simp)))]

/-- If, up to position `i`, every union timestamp is further than the
tolerance below every pending sample, the zero-order hold still reports the
initial `last` value at position `i`. -/
theorem fillColumn_getD_of_far (times : List ℚ) :
    ∀ (last : ℚ) (rest : List (ℚ × ℚ)) (i : ℕ), i < times.length →
      (∀ j, j ≤ i → ∀ s ∈ rest, times.getD j 0 + tol < (s : ℚ × ℚ).1) →
      (fillColumn times last rest).getD i 0 = last := by
  induction times with
  | nil => intro _ _ i hi _; exact absurd hi (by simp)
  | cons t more ih =>
      intro last rest i hi hfar
      have hc : consume t last rest = (last, rest) :=
        consume_of_far (fun s hs => hfar 0 (Nat.zero_le _) s hs)
      cases i with
      | zero => simp [fillColumn, hc]
      | succ i' =>
          simp only [fillColumn, hc, List.getD_cons_succ]
          exact ih last rest i' (Nat.lt_of_succ_lt_succ hi)
            (fun j hj s hs => hfar (j + 1) (Nat.succ_le_succ hj) s hs)

/-- Along a `≤`-sorted list, `getD` is monotone in the index. -/
theorem getD_mono_of_sorted {l : List ℚ} (hs : l.Sorted (· ≤ ·)) {j i : ℕ}
    (hji : j ≤ i) (hi : i < l.length) : l.getD j 0 ≤ l.getD i 0 := by
  rcases Nat.eq_or_lt_of_le hji with rfl | hlt
  · exact le_refl _
  · have hj : j < l.length := lt_trans hlt hi
    rw [List.getD_eq_getElem l 0 hj, List.getD_eq_getElem l 0 hi]
    exact List.pairwise_iff_getElem.mp hs j i hj hi hlt

/-- C6 counterexample: in `backwardHoldEdge`, the union timestamp `-1e-16`
precedes the first sample time `0` of signal `"a"`, yet the column value
there is `7` — the value of the SECOND sample `(1e-16, 7)`, which the
tolerance window `t + 1e-15` already reaches — and not the first sample
value `5`. -/
theorem c6_counterexample :
    build_structured_input backwardHoldEdge =
      some { times := [-1 / 10 ^ 16, 0, 1 / 10 ^ 16],
             columns := [("a", [7, 7, 7]), ("b", [0, 0, 0])] } ∧
    (-1 / 10 ^ 16 : ℚ) < 0 ∧ (7 : ℚ) ≠ 5 := by
  refine ⟨?_, by norm_num, by norm_num⟩
  norm_num [build_structured_input, allTimesOf, seriesOf, dictInsert, sortSamples,
    signalColumn, fillColumn, consume, tol, List.insertionSort, List.orderedInsert,
    backwardHoldEdge]
  simp only [String.reduceEq, reduceIte, List.map_cons, List.map_nil]
  norm_num [consume, tol]

/-- C6 (amended): in every accepted input with pairwise-distinct signal
names, a signal with zero samples gets the all-zero column, and a signal
with samples holds its first sample value at every union timestamp `t`
preceding its first sample time PROVIDED every later sample of that signal
lies further than the `1e-15` tolerance above `t`; otherwise the
zero-order-hold lookup already picks up that later sample. -/
theorem c6_zoh_backward (cfg : List Schedule) (tb : MergedTable)
    (hnd : (cfg.map Prod.fst).Nodup)
    (h : build_structured_input cfg = some tb)
    (name : String) (samples : List (ℚ × ℚ))
    (hmem : ((name, samples) : Schedule) ∈ cfg) :
    (samples = [] → (name, tb.times.map (fun _ => (0 : ℚ))) ∈ tb.columns) ∧
    (∀ t0 v0 rest, sortSamples samples = (t0, v0) :: rest →
      ∀ i, i < tb.times.length →
        tb.times.getD i 0 < t0 →
        (∀ s ∈ rest, tb.times.getD i 0 + tol < (s : ℚ × ℚ).1) →
        (name, signalColumn (sortSamples samples) tb.times) ∈ tb.columns ∧
        (signalColumn (sortSamples samples) tb.times).getD i 0 = v0) := by
  obtain ⟨ht, hc⟩ := build_eq_some h
  have hsorted : tb.times.Sorted (· ≤ ·) := by
    rw [ht]
    unfold allTimesOf
    exact (sorted_lt_sortedTimes _).imp le_of_lt
  have hcol : (name, signalColumn (sortSamples samples) tb.times) ∈ tb.columns := by
    rw [hc, seriesOf_eq_map cfg hnd]
    have h1 : ((name, sortSamples samples) : Schedule) ∈
        cfg.map (fun p => (p.1, sortSamples p.2)) :=
      List.mem_map.mpr ⟨(name, samples), hmem, rfl⟩
    exact List.mem_map.mpr ⟨(name, sortSamples samples), h1, rfl⟩
  refine ⟨?_, ?_⟩
  · intro hempty
    subst hempty
    simpa [sortSamples, List.insertionSort, signalColumn] using hcol
  · intro t0 v0 rest hsort i hi hbefore hfar
    refine ⟨hcol, ?_⟩
    rw [hsort]
    show (fillColumn tb.times v0 rest).getD i 0 = v0
    apply fillColumn_getD_of_far tb.times v0 rest i hi
    intro j hj s hs
    have hle : tb.times.getD j 0 ≤ tb.times.getD i 0 :=
      getD_mono_of_sorted hsorted hj hi
    have := hfar s hs
    linarith

/-- C6 witness: in the three-signal input, the empty signal `"c"` gets the
all-zero column, and signal `"a"` (first sample `(5,7)`) holds the value
`7` at the union timestamp `0`, which precedes its first sample time. -/
theorem c6_witness :
    (("c", ([0, 5, 10] : List ℚ).map (fun _ => (0 : ℚ))) ∈
      ([("a", [7, 7, 3]), ("b", [2, 2, 2]), ("c", [0, 0, 0])] :
        List (String × List ℚ))) ∧
    (("a", signalColumn (sortSamples [(5, 7), (10, 3)]) [0, 5, 10]) ∈
      ([("a", [7, 7, 3]), ("b", [2, 2, 2]), ("c", [0, 0, 0])] :
        List (String × List ℚ))) ∧
    (signalColumn (sortSamples [(5, 7), (10, 3)]) ([0, 5, 10] : List ℚ)).getD 0 0
      = 7 := by
  have h : build_structured_input threeSignalInput =
      some { times := [0, 5, 10],
             columns := [("a", [7, 7, 3]), ("b", [2, 2, 2]), ("c", [0, 0, 0])] } := by
    norm_num [build_structured_input, allTimesOf, seriesOf, dictInsert, sortSamples,
      signalColumn, fillColumn, consume, tol, List.insertionSort, List.orderedInsert,
      threeSignalInput]
    simp
    norm_num [consume, tol]
  have h1 := c6_zoh_backward threeSignalInput _ (by simp [threeSignalInput]) h
    "c" [] (by simp [threeSignalInput])
  have h2 := c6_zoh_backward threeSignalInput _ (by simp [threeSignalInput]) h
    "a" [(5, 7), (10, 3)] (by simp [threeSignalInput])
  have hsort : sortSamples [((5 : ℚ), (7 : ℚ)), (10, 3)] = ((5 : ℚ), (7 : ℚ)) :: [(10, 3)] := by
    norm_num [sortSamples, List.insertionSort, List.orderedInsert]
  have h2app := h2.2 5 7 [(10, 3)] hsort 0 (by norm_num) (by norm_num)
    (by intro s hs
        simp only [List.mem_singleton] at hs
        subst hs
        norm_num [tol])
  exact ⟨h1.1 rfl, h2app.1, h2app.2⟩

/-- Sorting after deduplication is invariant under permutation of the
underlying multiset of times. -/
theorem sortedTimes_perm_eq {l l' : List ℚ} (h : l.Perm l') :
    l.dedup.insertionSort (fun a b => a ≤ b)
      = l'.dedup.insertionSort (fun a b => a ≤ b) :=
  List.eq_of_perm_of_sorted
    ((List.perm_insertionSort _ _).trans
      (h.dedup.trans (List.perm_insertionSort _ _).symm))
    (List.sorted_insertionSort _ _) (List.sorted_insertionSort _ _)

/-- Association-list lookup is invariant under permutation of the entries
when the keys are pairwise distinct. -/
theorem lookup_perm_eq {α : Type} {l l' : List (String × α)} (hp : l.Perm l') :
    (l.map Prod.fst).Nodup → ∀ name : String,
      l.lookup name = l'.lookup name := by
  induction hp with
  | nil => intro _ _; rfl
  | cons x _ ih =>
      intro hnd name
      simp only [List.map_cons, List.nodup_cons] at hnd
      rcases x with ⟨k, v⟩
      simp only [List.lookup_cons]
      cases name == k
      · exact ih hnd.2 name
      · rfl
  | swap x y l =>
      intro hnd name
      rcases x with ⟨k1, v1⟩
      rcases y with ⟨k2, v2⟩
      have hne : k2 ≠ k1 := by
        intro he
        apply absurd hnd
        subst he
        simp [List.map_cons, List.nodup_cons]
      simp only [List.lookup_cons]
      by_cases h1 : name = k2 <;> by_cases h2 : name = k1
      · exact absurd (h1.symm.trans h2) hne
      · simp only [beq_iff_eq.mpr h1, beq_eq_false_iff_ne.mpr h2]
      · simp only [beq_iff_eq.mpr h2, beq_eq_false_iff_ne.mpr h1]
      · simp only [beq_eq_false_iff_ne.mpr h1, beq_eq_false_iff_ne.mpr h2]
  | trans h1 _ ih1 ih2 =>
      intro hnd name
      exact (ih1 hnd name).trans (ih2 ((h1.map Prod.fst).nodup hnd) name)

/-- A merge of a nonempty config with at least one sample somewhere
produces the table unconditionally. -/
theorem build_eq_some_of (cfg : List Schedule) (h1 : cfg.isEmpty = false)
    (h2 : (allTimesOf cfg).isEmpty = false) :
    build_structured_input cfg =
      some { times := (allTimesOf cfg).insertionSort (fun a b => a ≤ b),
             columns := (seriesOf cfg).map (fun p =>
               (p.1, signalColumn p.2
                 ((allTimesOf cfg).insertionSort (fun a b => a ≤ b)))) } := by
  simp [build_structured_input, h1, h2]

/-- C7: for every non-empty schedule list with pairwise-distinct signal
names, merging is invariant under permutation of the schedule list — the
time axis is identical and every signal name maps to an identical column. -/
theorem c7_merge_perm_invariant (cfg cfg' : List Schedule)
    (hne : cfg ≠ []) (hperm : cfg.Perm cfg')
    (hnd : (cfg.map Prod.fst).Nodup) :
    tableTimes (build_structured_input cfg)
      = tableTimes (build_structured_input cfg') ∧
    ∀ name : String, tableColumn name (build_structured_input cfg)
      = tableColumn name (build_structured_input cfg') := by
  have hnd' : (cfg'.map Prod.fst).Nodup := (hperm.map Prod.fst).nodup hnd
  have hfm : (cfg.flatMap (fun p => (sortSamples p.2).map Prod.fst)).Perm
      (cfg'.flatMap (fun p => (sortSamples p.2).map Prod.fst)) :=
    List.Perm.flatMap_right _ hperm
  have hat : (allTimesOf cfg).Perm (allTimesOf cfg') := hfm.dedup
  have hne' : cfg' ≠ [] := fun h => hne (List.Perm.eq_nil (h ▸ hperm))
  have he1 : cfg.isEmpty = false := by
    cases cfg
    · exact absurd rfl hne
    · rfl
  have he1' : cfg'.isEmpty = false := by
    cases hc : cfg' with
    | nil => exact absurd hc hne'
    | cons a l => rfl
  by_cases hemp : (allTimesOf cfg).isEmpty = true
  · have hemp' : (allTimesOf cfg').isEmpty = true := by
      rw [List.isEmpty_iff_length_eq_zero] at hemp ⊢
      rw [← hat.length_eq]
      exact hemp
    have hb : build_structured_input cfg = none := by
      simp [build_structured_input, he1, hemp]
    have hb' : build_structured_input cfg' = none := by
      simp [build_structured_input, he1', hemp']
    rw [hb, hb']
    exact ⟨rfl, fun _ => rfl⟩
  · have hemp2 : (allTimesOf cfg).isEmpty = false := by
      cases h : (allTimesOf cfg).isEmpty
      · rfl
      · exact absurd h hemp
    have hemp2' : (allTimesOf cfg').isEmpty = false := by
      rw [← Bool.not_eq_true, List.isEmpty_iff_length_eq_zero] at hemp2 ⊢
      rw [← hat.length_eq]
      exact hemp2
    have htimes : (allTimesOf cfg).insertionSort (fun a b => a ≤ b)
        = (allTimesOf cfg').insertionSort (fun a b => a ≤ b) := by
      unfold allTimesOf
      exact sortedTimes_perm_eq hfm
    rw [build_eq_some_of cfg he1 hemp2, build_eq_some_of cfg' he1' hemp2']
    refine ⟨by simp [tableTimes, htimes], ?_⟩
    intro name
    simp only [tableColumn]
    rw [seriesOf_eq_map cfg hnd, seriesOf_eq_map cfg' hnd', ← htimes,
      List.map_map, List.map_map]
    have hk : ((cfg.map ((fun p : Schedule => (p.1, signalColumn p.2
        ((allTimesOf cfg).insertionSort (fun a b => a ≤ b)))) ∘
        (fun p : Schedule => (p.1, sortSamples p.2)))).map Prod.fst)
        = cfg.map Prod.fst := by
      simp [List.map_map, Function.comp]
    exact lookup_perm_eq (hperm.map _) (by rw [hk]; exact hnd) name

/-- C7 witness: swapping the two schedules of the §8 example changes
neither the time axis nor the column of signal `"1"`. -/
theorem c7_witness :
    tableTimes (build_structured_input exampleTwoSchedules)
      = tableTimes (build_structured_input exampleTwoSchedulesRev) ∧
    tableColumn "1" (build_structured_input exampleTwoSchedules)
      = tableColumn "1" (build_structured_input exampleTwoSchedulesRev) := by
  have hperm : exampleTwoSchedules.Perm exampleTwoSchedulesRev :=
    List.Perm.swap _ _ _
  have h := c7_merge_perm_invariant exampleTwoSchedules exampleTwoSchedulesRev
    (by simp [exampleTwoSchedules]) hperm (by simp [exampleTwoSchedules])
  exact ⟨h.1, h.2 "1"⟩

/-- C5: `set_fmu`, then `add_result`, then a second `set_fmu`: the result
token from the middle call resolves to nothing afterwards; the second
`set_fmu` clears the auxiliary input and all results, stores the new
primary, and (for a fresh nonce) returns a token different from the result
token. -/
theorem c5_set_fmu_replaces_session (st : SessionState)
    (n1 n2 n3 : Nat) (name1 name2 name3 : String) (b1 b2 b3 : Bytes)
    (hfresh : new_token n3 ≠ new_token n2) :
    get_result (set_fmu (add_result (set_fmu st n1 name1 b1).2 n2 name2 b2).2
        n3 name3 b3).2
      (add_result (set_fmu st n1 name1 b1).2 n2 name2 b2).1 = none ∧
    (set_fmu (add_result (set_fmu st n1 name1 b1).2 n2 name2 b2).2
        n3 name3 b3).2.input_token = none ∧
    (set_fmu (add_result (set_fmu st n1 name1 b1).2 n2 name2 b2).2
        n3 name3 b3).2.input_bytes = none ∧
    (set_fmu (add_result (set_fmu st n1 name1 b1).2 n2 name2 b2).2
        n3 name3 b3).2.result_blobs = [] ∧
    (set_fmu (add_result (set_fmu st n1 name1 b1).2 n2 name2 b2).2
        n3 name3 b3).2.fmu_name = some name3 ∧
    (set_fmu (add_result (set_fmu st n1 name1 b1).2 n2 name2 b2).2
        n3 name3 b3).2.fmu_bytes = some b3 ∧
    (set_fmu (add_result (set_fmu st n1 name1 b1).2 n2 name2 b2).2
        n3 name3 b3).1
      ≠ (add_result (set_fmu st n1 name1 b1).2 n2 name2 b2).1 := by
  refine ⟨rfl, rfl, rfl, rfl, rfl, rfl, ?_⟩
  simpa [set_fmu, add_result] using hfresh

/-- C5 witness: the replacement sequence on a concrete session with nonces
`0`, `1`, `2`. -/
theorem c5_witness :
    get_result (set_fmu (add_result (set_fmu {} 0 "a.fmu" [1]).2 1 "r.csv" [2]).2
        2 "b.fmu" [3]).2
      (add_result (set_fmu {} 0 "a.fmu" [1]).2 1 "r.csv" [2]).1 = none ∧
    (set_fmu (add_result (set_fmu {} 0 "a.fmu" [1]).2 1 "r.csv" [2]).2
        2 "b.fmu" [3]).2.input_token = none ∧
    (set_fmu (add_result (set_fmu {} 0 "a.fmu" [1]).2 1 "r.csv" [2]).2
        2 "b.fmu" [3]).2.input_bytes = none ∧
    (set_fmu (add_result (set_fmu {} 0 "a.fmu" [1]).2 1 "r.csv" [2]).2
        2 "b.fmu" [3]).2.result_blobs = [] ∧
    (set_fmu (add_result (set_fmu {} 0 "a.fmu" [1]).2 1 "r.csv" [2]).2
        2 "b.fmu" [3]).2.fmu_name = some "b.fmu" ∧
    (set_fmu (add_result (set_fmu {} 0 "a.fmu" [1]).2 1 "r.csv" [2]).2
        2 "b.fmu" [3]).2.fmu_bytes = some [3] ∧
    (set_fmu (add_result (set_fmu {} 0 "a.fmu" [1]).2 1 "r.csv" [2]).2
        2 "b.fmu" [3]).1
      ≠ (add_result (set_fmu {} 0 "a.fmu" [1]).2 1 "r.csv" [2]).1 :=
  c5_set_fmu_replaces_session {} 0 1 2 "a.fmu" "r.csv" "b.fmu" [1] [2] [3]
    (by decide)

/-- Characterisation of the sweeper fold: from any accumulator it adds
exactly the entries passing `sweepDeletes`, in order. -/
theorem sweep_foldl (cutoff : ℤ) (l : List DirEntry) :
    ∀ acc : Nat × List String,
      l.foldl
        (fun acc e =>
          if !e.isRegularFile then acc
          else
            match e.statMtime with
            | none => acc
            | some m =>
                if m < cutoff then
                  if e.unlinkOk then (acc.1 + 1, acc.2 ++ [e.ename]) else acc
                else acc)
        acc
      = (acc.1 + (l.filter (sweepDeletes cutoff)).length,
         acc.2 ++ (l.filter (sweepDeletes cutoff)).map DirEntry.ename) := by
  induction l with
  | nil => intro acc; simp
  | cons e rest ih =>
      intro acc
      rw [List.foldl_cons, List.filter_cons, ih]
      by_cases h1 : e.isRegularFile = true
      · cases h2 : e.statMtime with
        | none => simp [sweepDeletes, h1, h2]
        | some m =>
            by_cases h3 : m < cutoff
            · by_cases h4 : e.unlinkOk = true
              · simp [sweepDeletes, h1, h2, h3, h4, Prod.ext_iff,
                  Nat.add_assoc, Nat.add_comm, Nat.add_left_comm]
              · simp [sweepDeletes, h1, h2, h3, h4]
            · simp [sweepDeletes, h1, h2, h3]
      · have h1' : e.isRegularFile = false := by
          cases h : e.isRegularFile
          · rfl
          · exact absurd h h1
        simp [sweepDeletes, h1']

/-- C9: the sweeper returns `0` when the directory is missing; otherwise it
deletes exactly the direct regular-file entries that stat successfully,
whose mtime is strictly older than `now - max_age`, and whose unlink
succeeds — in directory order — and returns their count.  Entries that are
not regular files, fail to stat, or fail to unlink are skipped without
being counted, and no error is ever produced. -/
theorem c9_sweep_exact (d : UploadDir) (now max_age_hours : ℤ) :
    (d.present = false → cleanup_old_files d now max_age_hours = (0, [])) ∧
    (d.present = true →
      cleanup_old_files d now max_age_hours
        = ((d.entries.filter (sweepDeletes (now - 3600 * max_age_hours))).length,
           (d.entries.filter (sweepDeletes (now - 3600 * max_age_hours))).map
             DirEntry.ename)) := by
  constructor
  · intro h
    simp [cleanup_old_files, h]
  · intro h
    unfold cleanup_old_files
    rw [h]
    simp only [Bool.not_true, Bool.false_eq_true, if_false]
    rw [sweep_foldl]
    simp

/-- C9 witness: a missing directory yields `(0, [])`, and on the concrete
five-entry directory only the old, statable, deletable regular file `"old"`
is removed and counted. -/
theorem c9_witness :
    cleanup_old_files { present := false, entries := [] } 10000 1 = (0, []) ∧
    cleanup_old_files sweepExampleDir 10000 1 = (1, ["old"]) := by
  constructor
  · exact (c9_sweep_exact { present := false, entries := [] } 10000 1).1 rfl
  · rw [(c9_sweep_exact sweepExampleDir 10000 1).2 rfl]
    decide

/-- C10: `clear` never reports a deletion error, removes exactly one token
per artifact present (primary if set, auxiliary if set, and each result,
in that order), is entirely independent of the `upload_dir` argument (no
file is touched), leaves a store on which every result lookup misses, and
on an empty session removes nothing. -/
theorem c10_clear_report (st : SessionState) (dir dir2 : String)
    (h1 : st.fmu_token ≠ some "") (h2 : st.input_token ≠ some "") :
    (clear st dir).1.errors = [] ∧
    (clear st dir).1.removed
      = st.fmu_token.toList ++ st.input_token.toList ++
          st.result_blobs.map Prod.fst ∧
    clear st dir = clear st dir2 ∧
    (∀ t, get_result (clear st dir).2 t = none) ∧
    (st = {} → (clear st dir).1.removed = []) := by
  have hf : tokenIfTruthy st.fmu_token = st.fmu_token.toList := by
    cases hx : st.fmu_token with
    | none => rfl
    | some s =>
        have hs : s.isEmpty = false := by
          cases hy : s.isEmpty
          · rfl
          · exact absurd (hx.trans (congrArg some ((String.isEmpty_iff s).mp hy))) h1
        simp [tokenIfTruthy, hs]
  have hi : tokenIfTruthy st.input_token = st.input_token.toList := by
    cases hx : st.input_token with
    | none => rfl
    | some s =>
        have hs : s.isEmpty = false := by
          cases hy : s.isEmpty
          · rfl
          · exact absurd (hx.trans (congrArg some ((String.isEmpty_iff s).mp hy))) h2
        simp [tokenIfTruthy, hs]
  refine ⟨rfl, ?_, rfl, fun t => rfl, ?_⟩
  · simp [clear, hf, hi]
  · intro he
    subst he
    rfl

/-- C10 witness: clearing a populated session and an empty session. -/
theorem c10_witness :
    (clear populatedSession "uploads").1.errors = [] ∧
    (clear populatedSession "uploads").1.removed
      = populatedSession.fmu_token.toList ++ populatedSession.input_token.toList ++
          populatedSession.result_blobs.map Prod.fst ∧
    clear populatedSession "uploads" = clear populatedSession "elsewhere" ∧
    (∀ t, get_result (clear populatedSession "uploads").2 t = none) ∧
    (populatedSession = {} →
      (clear populatedSession "uploads").1.removed = []) :=
  c10_clear_report populatedSession "uploads" "elsewhere"
    (by simp [populatedSession]) (by simp [populatedSession])

/-- C2 counterexample: a download request for `/etc/passwd` — outside the
upload root `/app/uploads`, with the file existing on disk — is answered
with the escaped `AttributeError` (HTTP 500), not with the 404
file-not-found rejection the claim describes.  (The file is still not
served.) -/
theorem c2_counterexample :
    download "/app/uploads" (some "/etc/passwd") id (fun _ => true)
        (fun _ => true) true
      = .raised "AttributeError: result_files" ∧
    download "/app/uploads" (some "/etc/passwd") id (fun _ => true)
        (fun _ => true) true
      ≠ .notFound := by
  exact ⟨rfl, by decide⟩

/-- C2 (amended): every download request carrying a truthy path argument —
in particular one whose resolved path lies outside the configured upload
root while the file exists on disk — is answered with an error (HTTP 500:
the handler evaluates the undefined `store.result_files` before any path
check and the `AttributeError` escapes), and the file is never read or
served. -/
theorem c2_download_no_serve (root : String) (pathArg : Option String)
    (resolve : String → String) (allowed : String → Bool)
    (pathExists : String → Bool) (sendOk : Bool) (p : String)
    (hp : pathArg = some p) (hne : p ≠ "")
    (houtside : pyStartsWith (resolve p) root = false)
    (hexists : pathExists (resolve p) = true) :
    download root pathArg resolve allowed pathExists sendOk
      = .raised "AttributeError: result_files" ∧
    (download root pathArg resolve allowed pathExists sendOk).code = 500 ∧
    ∀ q, download root pathArg resolve allowed pathExists sendOk
      ≠ .served q := by
  subst hp
  have hd : download root (some p) resolve allowed pathExists sendOk
      = .raised "AttributeError: result_files" := by
    simp [download, hne, storeAttr, sessionStoreAttrs]
  refine ⟨hd, by rw [hd]; rfl, fun q => by rw [hd]; intro h; cases h⟩

/-- C2 witness: the amended statement at a concrete traversal attempt. -/
theorem c2_witness :
    download "/app/uploads" (some "/tmp/evil.csv") id (fun _ => true)
        (fun _ => true) true
      = .raised "AttributeError: result_files" ∧
    (download "/app/uploads" (some "/tmp/evil.csv") id (fun _ => true)
        (fun _ => true) true).code = 500 ∧
    ∀ q, download "/app/uploads" (some "/tmp/evil.csv") id (fun _ => true)
        (fun _ => true) true
      ≠ .served q :=
  c2_download_no_serve "/app/uploads" (some "/tmp/evil.csv") id (fun _ => true)
    (fun _ => true) true "/tmp/evil.csv" rfl (by decide) (by decide) rfl

/-- Behaviour of the `try` block of `/api/run`: the store is never touched
and the success response is never produced (the `add_result_file` access
raises before it). -/
theorem run_try_never_ok (st : SessionState) (w : RunWorld) (p : RunPayload)
    (ts parent : String) :
    (run_simulation_try st w p ts parent).store = st ∧
    ∀ c csv lg, (run_simulation_try st w p ts parent).response ≠ .ok c csv lg := by
  have hA : storeAttr "add_result_file"
      = Except.error "AttributeError: add_result_file" := rfl
  cases hplat : w.platformOk <;> cases heng : w.engine <;>
    simp [run_simulation_try, hplat, heng, hA]

/-- Behaviour of the part of `/api/run` after path resolution: the store is
never touched and the success response is never produced. -/
theorem run_checked_never_ok (st : SessionState) (w : RunWorld) (p : RunPayload)
    (ts parent fp : String) :
    (run_simulation_checked st w p ts parent fp).store = st ∧
    ∀ c csv lg,
      (run_simulation_checked st w p ts parent fp).response ≠ .ok c csv lg := by
  have htry := run_try_never_ok st w p ts parent
  unfold run_simulation_checked
  by_cases hcond : (decide (fp = "") || !w.pathExists fp) = true
  · rw [if_pos hcond]
    exact ⟨rfl, fun c csv lg h => by cases h⟩
  · rw [if_neg hcond]
    rcases hin : p.input_file with _ | g
    · exact htry
    · dsimp only
      by_cases h2 : (decide (g ≠ "") && !w.pathExists g) = true
      · rw [if_pos h2]
        exact ⟨rfl, fun c csv lg h => by cases h⟩
      · rw [if_neg h2]
        exact htry

/-- Behaviour of `/api/run` as a whole: the store is never touched and the
success response is never produced. -/
theorem run_never_ok (st : SessionState) (w : RunWorld) (p : RunPayload)
    (ts parent : String) :
    (run_simulation st w p ts parent).store = st ∧
    ∀ c csv lg, (run_simulation st w p ts parent).response ≠ .ok c csv lg := by
  unfold run_simulation
  rcases hfmu : p.fmu with _ | f
  · exact ⟨rfl, fun c csv lg h => by cases h⟩
  · dsimp only
    by_cases hf : f = ""
    · rw [if_neg (by simp [hf])]
      exact ⟨rfl, fun c csv lg h => by cases h⟩
    · rw [if_pos hf]
      exact run_checked_never_ok st w p ts parent f

/-- C8: if the engine raises during a run that reached it (the payload
carries an existing model path, the auxiliary input file — when given — is
present, and the platform pre-flight passed), then no file is written, the
store is unchanged, and the 500 response carries the engine's error message
verbatim together with the log lines accumulated up to the failure point
(followed only by the optional TwinCAT hint). -/
theorem c8_engine_failure (st : SessionState) (w : RunWorld) (p : RunPayload)
    (ts parent : String) (f e : String)
    (hf : p.fmu = some f) (hne : f ≠ "") (hex : w.pathExists f = true)
    (hin : p.input_file = none ∨
      ∃ g, p.input_file = some g ∧ (g = "" ∨ w.pathExists g = true))
    (hplat : w.platformOk = true)
    (heng : w.engine = Except.error e) :
    run_simulation st w p ts parent
      = { response := .exceptBranch e (runLogs w p ++ twinHint (runLogs w p) e)
          store := st
          files := [] } := by
  have htry : run_simulation_try st w p ts parent
      = { response := .exceptBranch e (runLogs w p ++ twinHint (runLogs w p) e)
          store := st
          files := [] } := by
    simp [run_simulation_try, hplat, heng]
  have hchecked : run_simulation_checked st w p ts parent f
      = { response := .exceptBranch e (runLogs w p ++ twinHint (runLogs w p) e)
          store := st
          files := [] } := by
    unfold run_simulation_checked
    rw [if_neg (by simp [hne, hex])]
    rcases hin with hin | ⟨g, hg, hcase⟩
    · rw [hin]
      exact htry
    · rw [hg]
      dsimp only
      rcases hcase with hge | hgex
      · rw [if_neg (by simp [hge])]
        exact htry
      · rw [if_neg (by simp [hgex])]
        exact htry
  unfold run_simulation
  rw [hf]
  dsimp only
  rw [if_pos hne]
  exact hchecked

/-- C8 witness: a concrete run against the engine-down world. -/
theorem c8_witness :
    run_simulation {} runWorldEngineDown
        { fmu := some "m.fmu", inputs := [], input_file := none,
          validate := none } "t" "up"
      = { response := .exceptBranch "boom"
            (runLogs runWorldEngineDown
                { fmu := some "m.fmu", inputs := [], input_file := none,
                  validate := none } ++
              twinHint
                (runLogs runWorldEngineDown
                  { fmu := some "m.fmu", inputs := [], input_file := none,
                    validate := none }) "boom")
          store := {}
          files := [] } :=
  c8_engine_failure {} runWorldEngineDown
    { fmu := some "m.fmu", inputs := [], input_file := none, validate := none }
    "t" "up" "m.fmu" "boom" rfl (by decide) rfl (Or.inl rfl) rfl rfl

/-- `upload_fmu` on any request: the store is either untouched or (when
`clearFirst` was set) cleared, and the success response never occurs. -/
theorem upload_fmu_never_ok (dir : String) (st : SessionState)
    (req : UploadReq) (terr : Option String) (ts : String) :
    (upload_fmu dir st req terr ts).store = (if req.clearFirst then {} else st) ∧
    ∀ q, (upload_fmu dir st req terr ts).response ≠ .ok q := by
  unfold upload_fmu
  rcases req with ⟨cf, file⟩
  rcases file with _ | f
  · exact ⟨rfl, fun q h => by cases h⟩
  · dsimp only
    by_cases h1 : f = ""
    · rw [if_pos h1]
      exact ⟨rfl, fun q h => by cases h⟩
    · rw [if_neg h1]
      by_cases h2 : (!(pyLowerEndsWith f ".fmu")) = true
      · rw [if_pos h2]
        exact ⟨rfl, fun q h => by cases h⟩
      · rw [if_neg h2]
        rcases terr with _ | msg
        · exact ⟨rfl, fun q h => by cases h⟩
        · exact ⟨rfl, fun q h => by cases h⟩

/-- A validated `upload_fmu` request (file part present, nonempty name,
`.fmu` extension) always ends in the 500 `except` branch. -/
theorem upload_fmu_valid_500 (dir : String) (st : SessionState)
    (req : UploadReq) (terr : Option String) (ts f : String)
    (hf : req.file = some f) (h1 : f ≠ "")
    (h2 : pyLowerEndsWith f ".fmu" = true) :
    (upload_fmu dir st req terr ts).response.code = 500 := by
  unfold upload_fmu
  rw [hf]
  dsimp only
  rw [if_neg h1, if_neg (by simp [h2])]
  rcases terr with _ | msg
  · rfl
  · rfl

/-- `upload_input_file` on any request: the store is untouched and the
success response never occurs. -/
theorem upload_input_never_ok (dir : String) (st : SessionState)
    (file : Option String) (ts : String) :
    (upload_input_file dir st file ts).store = st ∧
    ∀ q, (upload_input_file dir st file ts).response ≠ .ok q := by
  unfold upload_input_file
  rcases file with _ | f
  · exact ⟨rfl, fun q h => by cases h⟩
  · dsimp only
    by_cases h1 : f = ""
    · rw [if_pos h1]
      exact ⟨rfl, fun q h => by cases h⟩
    · rw [if_neg h1]
      by_cases h2 : (!(pyLowerEndsWith f ".csv")) = true
      · rw [if_pos h2]
        exact ⟨rfl, fun q h => by cases h⟩
      · rw [if_neg h2]
        exact ⟨rfl, fun q h => by cases h⟩

/-- A validated `upload_input_file` request always ends in the 500 `except`
branch. -/
theorem upload_input_valid_500 (dir : String) (st : SessionState)
    (file : Option String) (ts f : String)
    (hf : file = some f) (h1 : f ≠ "")
    (h2 : pyLowerEndsWith f ".csv" = true) :
    (upload_input_file dir st file ts).response.code = 500 := by
  unfold upload_input_file
  rw [hf]
  dsimp only
  rw [if_neg h1, if_neg (by simp [h2])]
  rfl

/-- A run whose payload lacks a truthy model path evaluates the undefined
`store.fmu_path` outside the `try` and escapes with the `AttributeError`. -/
theorem run_falsy_fmu_raises (st : SessionState) (w : RunWorld)
    (p : RunPayload) (ts parent : String)
    (h : p.fmu = none ∨ p.fmu = some "") :
    (run_simulation st w p ts parent).response
      = .raised "AttributeError: fmu_path" := by
  unfold run_simulation
  rcases h with h | h
  · rw [h]
    rfl
  · rw [h]
    dsimp only
    rw [if_neg (by simp)]
    rfl

/-- When the path checks pass, `run_simulation_checked` delegates to the
`try` block. -/
theorem run_checked_reaches_try (st : SessionState) (w : RunWorld)
    (p : RunPayload) (ts parent fp : String)
    (hne : fp ≠ "") (hex : w.pathExists fp = true)
    (hin : p.input_file = none ∨
      ∃ g, p.input_file = some g ∧ (g = "" ∨ w.pathExists g = true)) :
    run_simulation_checked st w p ts parent fp
      = run_simulation_try st w p ts parent := by
  unfold run_simulation_checked
  rw [if_neg (by simp [hne, hex])]
  rcases hin with hin | ⟨g, hg, hcase⟩
  · rw [hin]
  · rw [hg]
    dsimp only
    rcases hcase with hge | hgex
    · rw [if_neg (by simp [hge])]
    · rw [if_neg (by simp [hgex])]

/-- Even after a successful engine call, the `try` block hits the undefined
`store.add_result_file` and lands in the 500 `except` branch. -/
theorem run_try_engine_ok_500 (st : SessionState) (w : RunWorld)
    (p : RunPayload) (ts parent : String)
    (hplat : w.platformOk = true) (r : List String × Nat)
    (heng : w.engine = Except.ok r) :
    (run_simulation_try st w p ts parent).response
      = .exceptBranch "AttributeError: add_result_file"
          (runLogs w p ++
            twinHint (runLogs w p) "AttributeError: add_result_file") := by
  have hA : storeAttr "add_result_file"
      = Except.error "AttributeError: add_result_file" := rfl
  simp [run_simulation_try, hplat, heng, hA]

/-- Every download request with a truthy path escapes with the
`AttributeError` on `store.result_files`. -/
theorem download_raises (root : String) (pathArg : Option String)
    (resolve : String → String) (allowed : String → Bool)
    (pathExists : String → Bool) (sendOk : Bool) (p : String)
    (hp : pathArg = some p) (hne : p ≠ "") :
    download root pathArg resolve allowed pathExists sendOk
      = .raised "AttributeError: result_files" := by
  subst hp
  simp [download, hne, storeAttr, sessionStoreAttrs]

/-- C3 counterexample: an upload-model request without a file part is
answered 400 from the input-validation branch; it does not reach any store
attribute access and does not terminate in the HTTP 500 error branch. -/
theorem c3_counterexample :
    (upload_fmu "up" {} { clearFirst := false, file := none } none "t").response
      = .badRequest "No file" ∧
    (upload_fmu "up" {} { clearFirst := false, file := none } none "t").response.code
      = 400 :=
  ⟨rfl, rfl⟩

/-- C3 (amended): in the packaged `fmu_web` app, every upload-model or
upload-auxiliary-input request that passes input validation, every run
request (either its payload lacks a truthy model path — then `store.fmu_path`
raises outside the `try` — or, when all pre-flight checks and the engine
call succeed, `store.add_result_file` raises inside it), and every download
request with a truthy path reaches an attribute access that `SessionStore`
does not define and terminates with HTTP 500; none of these four routes
ever returns its success response, and no artifact is ever registered in
the store through them (the store after the request equals the store
before, except that `clearFirst` empties it). -/
theorem c3_missing_store_interface :
    (∀ dir st req terr ts,
      (upload_fmu dir st req terr ts).store
        = (if req.clearFirst then {} else st) ∧
      (∀ q, (upload_fmu dir st req terr ts).response ≠ .ok q) ∧
      (∀ f, req.file = some f → f ≠ "" → pyLowerEndsWith f ".fmu" = true →
        (upload_fmu dir st req terr ts).response.code = 500)) ∧
    (∀ dir st file ts,
      (upload_input_file dir st file ts).store = st ∧
      (∀ q, (upload_input_file dir st file ts).response ≠ .ok q) ∧
      (∀ f, file = some f → f ≠ "" → pyLowerEndsWith f ".csv" = true →
        (upload_input_file dir st file ts).response.code = 500)) ∧
    (∀ st w p ts parent,
      (run_simulation st w p ts parent).store = st ∧
      (∀ c csv lg, (run_simulation st w p ts parent).response ≠ .ok c csv lg) ∧
      ((p.fmu = none ∨ p.fmu = some "") →
        (run_simulation st w p ts parent).response
          = .raised "AttributeError: fmu_path") ∧
      (∀ f r, p.fmu = some f → f ≠ "" → w.pathExists f = true →
        (p.input_file = none ∨
          ∃ g, p.input_file = some g ∧ (g = "" ∨ w.pathExists g = true)) →
        w.platformOk = true → w.engine = Except.ok r →
        (run_simulation st w p ts parent).response.code = 500)) ∧
    (∀ root pathArg resolve allowed pathExists sendOk p, pathArg = some p →
      p ≠ "" →
      (download root pathArg resolve allowed pathExists sendOk).code = 500) := by
  refine ⟨?_, ?_, ?_, ?_⟩
  · intro dir st req terr ts
    obtain ⟨hs, hok⟩ := upload_fmu_never_ok dir st req terr ts
    exact ⟨hs, hok, fun f hf h1 h2 => upload_fmu_valid_500 dir st req terr ts f hf h1 h2⟩
  · intro dir st file ts
    obtain ⟨hs, hok⟩ := upload_input_never_ok dir st file ts
    exact ⟨hs, hok, fun f hf h1 h2 => upload_input_valid_500 dir st file ts f hf h1 h2⟩
  · intro st w p ts parent
    obtain ⟨hs, hok⟩ := run_never_ok st w p ts parent
    refine ⟨hs, hok, run_falsy_fmu_raises st w p ts parent, ?_⟩
    intro f r hf hne hex hin hplat heng
    have hrun : run_simulation st w p ts parent
        = run_simulation_try st w p ts parent := by
      unfold run_simulation
      rw [hf]
      dsimp only
      rw [if_pos hne]
      exact run_checked_reaches_try st w p ts parent f hne hex hin
    rw [hrun, run_try_engine_ok_500 st w p ts parent hplat r heng]
    rfl
  · intro root pathArg resolve allowed pathExists sendOk p hp hne
    rw [download_raises root pathArg resolve allowed pathExists sendOk p hp hne]
    rfl

/-- C3 witness: concrete requests on each route — a valid model upload, a
valid auxiliary upload, a run without a payload model path, a run whose
engine call succeeds, and a download with a path — all ending in HTTP 500
(the run without a path with the escaped `AttributeError`). -/
theorem c3_witness :
    (upload_fmu "up" populatedSession
        { clearFirst := false, file := some "Model.fmu" } none "t").response.code
      = 500 ∧
    (upload_input_file "up" populatedSession (some "data.csv") "t").response.code
      = 500 ∧
    (run_simulation populatedSession runWorldOk
        { fmu := none, inputs := [], input_file := none, validate := none }
        "t" "u").response
      = .raised "AttributeError: fmu_path" ∧
    (run_simulation populatedSession runWorldOk
        { fmu := some "m.fmu", inputs := [], input_file := none, validate := none }
        "t" "u").response.code = 500 ∧
    (download "root" (some "p.csv") id (fun _ => true) (fun _ => true)
        true).code = 500 := by
  obtain ⟨h1, h2, h3, h4⟩ := c3_missing_store_interface
  refine ⟨?_, ?_, ?_, ?_, ?_⟩
  · exact (h1 "up" populatedSession
      { clearFirst := false, file := some "Model.fmu" } none "t").2.2
      "Model.fmu" rfl (by decide) (by decide)
  · exact (h2 "up" populatedSession (some "data.csv") "t").2.2
      "data.csv" rfl (by decide) (by decide)
  · exact (h3 populatedSession runWorldOk
      { fmu := none, inputs := [], input_file := none, validate := none }
      "t" "u").2.2.1 (Or.inl rfl)
  · exact (h3 populatedSession runWorldOk
      { fmu := some "m.fmu", inputs := [], input_file := none, validate := none }
      "t" "u").2.2.2 "m.fmu" (["time", "y"], 3) rfl (by decide) rfl
      (Or.inl rfl) rfl rfl
  · exact h4 "root" (some "p.csv") id (fun _ => true) (fun _ => true) true
      "p.csv" rfl (by decide)

end FMUWeb
